import Mathlib

/-!
Verification of the real-time messaging core of the social-lite repository.

The embedding models the MongoDB collections as Lean lists kept in insertion
order ("natural order"): `findOne` is first-match, `updateOne` with upsert
updates the first match or appends, `deleteOne` removes the first match.
Socket.io primitives are modelled explicitly: `io.emit` targets all connected
sockets, `io.to(room).emit` targets sockets joined to the room, and
`socket.emit` targets one socket id.  Every handler is a pure function from
store/server state to new state plus a list of emitted events.
-/

namespace SocialLite

/-- A row of the `users` collection (the fields the messaging core reads). -/
structure User where
  id : String
  first_name : String
  last_name : String
  avatar_url : Option String
  deriving DecidableEq, Repr

/-- A row of the `conversation_participants` collection (the key fields). -/
structure Participant where
  conversation_id : String
  user_id : String
  deriving DecidableEq, Repr

/-- A row of the `messages` collection. -/
structure Message where
  id : String
  conversation_id : String
  sender_id : String
  content : String
  created_at : Nat
  deriving DecidableEq, Repr

/-- A row of the `message_reactions` collection. -/
structure Reaction where
  message_id : String
  user_id : String
  reaction : String
  created_at : Nat
  deriving DecidableEq, Repr

/-- A row of the `message_deletions` collection. -/
structure DeletionMarker where
  message_id : String
  user_id : String
  deleted_for_everyone : Bool
  deriving DecidableEq, Repr

/-- The document store state used by the messaging core. -/
structure Db where
  users : List User
  conversation_participants : List Participant
  messages : List Message
  message_reactions : List Reaction
  message_deletions : List DeletionMarker
  deriving DecidableEq, Repr

/-! ### Mongo-style list primitives -/

/-- `updateOne` body: replace the first element satisfying `p` by `f` of it. -/
def replaceFirst (p : α → Bool) (f : α → α) : List α → List α
  | [] => []
  | x :: xs => if p x then f x :: xs else x :: replaceFirst p f xs

/-- `updateOne` with `upsert: true`: update the first match, else insert
`ins` at the end of the collection. -/
def updateOneUpsert (l : List α) (p : α → Bool) (f : α → α) (ins : α) : List α :=
  match l.find? p with
  | some _ => replaceFirst p f l
  | none => l ++ [ins]

/-- `deleteOne`: remove the first element satisfying `p`. -/
def deleteOne (p : α → Bool) : List α → List α
  | [] => []
  | x :: xs => if p x then xs else x :: deleteOne p xs

/-! ### Socket server model -/

/-- A connected socket: its socket id and the authenticated user id stored in
`socket.data.userId`. -/
structure Conn where
  sid : String
  userId : String
  deriving DecidableEq, Repr

/-- In-memory socket.io server state: the connected sockets, the
`onlineUsers` map (user id to socket id, insertion-ordered with overwrite on
`set`), and room membership pairs (socket id, room name). -/
structure SocketState where
  connected : List Conn
  onlineUsers : List (String × String)
  rooms : List (String × String)
  deriving DecidableEq, Repr

/-- JS `Map.set`: overwrite the value of an existing key in place, else
append the binding. -/
def mapSet (m : List (String × String)) (k v : String) : List (String × String) :=
  if m.any (fun kv => kv.1 == k) then
    m.map (fun kv => if kv.1 == k then (k, v) else kv)
  else m ++ [(k, v)]

/-- JS `Map.delete`: drop every binding of the key. -/
def mapDelete (m : List (String × String)) (k : String) : List (String × String) :=
  m.filter (fun kv => !(kv.1 == k))

/-- JS `Map.get`. -/
def mapGet (m : List (String × String)) (k : String) : Option String :=
  (m.find? (fun kv => kv.1 == k)).map (fun kv => kv.2)

/-- Target of an emitted event: `io.emit` (all connected sockets),
`io.to(room).emit`, or `socket.emit` (one socket). -/
inductive Target where
  | all : Target
  | room (name : String) : Target
  | socket (sid : String) : Target
  deriving DecidableEq, Repr

/-- Denormalized sender profile embedded in a `new_message` payload. -/
structure WireSender where
  id : String
  first_name : String
  last_name : String
  avatar_url : Option String
  deriving DecidableEq, Repr

/-- One entry of a broadcast reaction list. -/
structure ReactionEntry where
  user_id : String
  reaction : String
  deriving DecidableEq, Repr

/-- Payload of a `new_message` broadcast. -/
structure WireMessage where
  id : String
  conversation_id : String
  sender_id : String
  content : String
  sender : Option WireSender
  reactions : List ReactionEntry
  deriving DecidableEq, Repr

/-- Events the server emits over the real-time channel. -/
inductive Event where
  | user_online (userId : String) : Event
  | user_offline (userId : String) : Event
  | new_message (msg : WireMessage) : Event
  | message_reaction_updated (messageId : String) (reactions : List ReactionEntry) : Event
  | message_deleted (messageId : String) (deletedForEveryone : Bool) : Event
  | user_typing (userId : String) (conversationId : String) : Event
  deriving DecidableEq, Repr

/-- One emission: a target and an event. -/
structure Emit where
  target : Target
  event : Event
  deriving DecidableEq, Repr

/-- Whether an emission with the given target is delivered to socket `sid`,
given the server state at emission time. -/
def deliversTo (st : SocketState) (t : Target) (sid : String) : Bool :=
  match t with
  | Target.all => st.connected.any (fun c => c.sid == sid)
  | Target.room r => st.rooms.contains (sid, r)
  | Target.socket s => s == sid

/-! ### Handlers, translated from `src/server/src/socket.ts` -/

/-- `isConversationParticipant`: a `findOne` on `conversation_participants`
coerced to a boolean. -/
def isConversationParticipant (db : Db) (userId conversationId : String) : Bool :=
  (db.conversation_participants.find? (fun p =>
    p.conversation_id == conversationId && p.user_id == userId)).isSome

/-- The `{ message_id, user_id }` filter used on `message_reactions`. -/
def reactionKey (messageId userId : String) (r : Reaction) : Bool :=
  r.message_id == messageId && r.user_id == userId

/-- The `react_message` handler: participant check, then delete-or-upsert of
the (message, user) reaction, then a full re-read of the message's reactions
broadcast to the conversation room. -/
def reactMessage (db : Db) (userId messageId conversationId : String)
    (reaction : Option String) (now : Nat) : Db × List Emit :=
  if !(isConversationParticipant db userId conversationId) then (db, [])
  else
    let reactions2 :=
      match reaction with
      | none => deleteOne (reactionKey messageId userId) db.message_reactions
      | some k =>
        updateOneUpsert db.message_reactions (reactionKey messageId userId)
          (fun r => { r with reaction := k, created_at := now })
          ⟨messageId, userId, k, now⟩
    let db2 := { db with message_reactions := reactions2 }
    let reactions := db2.message_reactions.filter (fun r => r.message_id == messageId)
    (db2,
      [⟨Target.room ("conversation_" ++ conversationId),
        Event.message_reaction_updated messageId
          (reactions.map (fun r => ⟨r.user_id, r.reaction⟩))⟩])

/-- The `send_message` handler: participant check, insert the message
(`newId` is the store-assigned id, `now` the server timestamp), look up the
sender's profile, and broadcast the materialized message with an empty
reaction list to the conversation room. -/
def sendMessage (db : Db) (userId conversationId content : String)
    (newId : String) (now : Nat) : Db × List Emit :=
  if !(isConversationParticipant db userId conversationId) then (db, [])
  else
    let msg : Message := ⟨newId, conversationId, userId, content, now⟩
    let db2 := { db with messages := db.messages ++ [msg] }
    let sender := db2.users.find? (fun u => u.id == userId)
    (db2,
      [⟨Target.room ("conversation_" ++ conversationId),
        Event.new_message
          ⟨newId, conversationId, userId, content,
            sender.map (fun u => ⟨u.id, u.first_name, u.last_name, u.avatar_url⟩),
            []⟩⟩])

/-- The `{ message_id, user_id }` filter used on `message_deletions`. -/
def deletionKey (messageId userId : String) (d : DeletionMarker) : Bool :=
  d.message_id == messageId && d.user_id == userId

/-- The `delete_message` handler: participant check; for `forEveryone` the
message is looked up and the handler silently returns unless the requester is
its sender (also when the message does not exist, since in the source
`msg?.sender_id !== userId` holds when `msg` is null), then the marker is
upserted and a tombstone is broadcast to the room; otherwise the marker is
upserted with the flag false and the tombstone is emitted only to the
requester's own socket. -/
def deleteMessage (db : Db) (userId socketId messageId conversationId : String)
    (forEveryone : Bool) : Db × List Emit :=
  if !(isConversationParticipant db userId conversationId) then (db, [])
  else if forEveryone then
    match db.messages.find? (fun m => m.id == messageId) with
    | none => (db, [])
    | some msg =>
      if msg.sender_id != userId then (db, [])
      else
        let marks :=
          updateOneUpsert db.message_deletions (deletionKey messageId userId)
            (fun _ => ⟨messageId, userId, true⟩) ⟨messageId, userId, true⟩
        ({ db with message_deletions := marks },
          [⟨Target.room ("conversation_" ++ conversationId),
            Event.message_deleted messageId true⟩])
  else
    let marks :=
      updateOneUpsert db.message_deletions (deletionKey messageId userId)
        (fun _ => ⟨messageId, userId, false⟩) ⟨messageId, userId, false⟩
    ({ db with message_deletions := marks },
      [⟨Target.socket socketId, Event.message_deleted messageId false⟩])

/-- The `join_conversation` handler: join the conversation room only when the
user is a persisted participant; otherwise silently ignore. -/
def joinConversation (db : Db) (st : SocketState) (userId socketId conversationId : String) :
    SocketState :=
  if isConversationParticipant db userId conversationId then
    { st with rooms := st.rooms ++ [(socketId, "conversation_" ++ conversationId)] }
  else st

/-! ### Connection lifecycle -/

/-- The `io.use` authentication middleware: reject when no token is present,
verify the token otherwise (`verify` abstracts `jwt.verify` under the server
secret: it returns the decoded user id or fails), and reject on failure. -/
def authMiddleware (verify : String → Option String) (token : Option String) :
    Except String String :=
  match token with
  | none => Except.error "Authentication required"
  | some t =>
    match verify t with
    | some userId => Except.ok userId
    | none => Except.error "Invalid token"

/-- The `connection` handler body, run once the middleware accepted the
socket: the socket is connected, recorded in `onlineUsers`, and a
`user_online` event is emitted via `io.emit`. -/
def onConnection (st : SocketState) (userId socketId : String) : SocketState × List Emit :=
  ({ st with
      connected := st.connected ++ [⟨socketId, userId⟩],
      onlineUsers := mapSet st.onlineUsers userId socketId },
    [⟨Target.all, Event.user_online userId⟩])

/-- A full connection attempt: the middleware runs first; on error the
connection is refused with the error and nothing else happens; on success the
connection handler runs. -/
def attemptConnection (st : SocketState) (verify : String → Option String)
    (token : Option String) (socketId : String) :
    SocketState × List Emit × Option String :=
  match authMiddleware verify token with
  | Except.error e => (st, [], some e)
  | Except.ok userId =>
    let r := onConnection st userId socketId
    (r.1, r.2, none)

/-- The `disconnect` handler: the socket leaves the connected set and its
rooms (socket.io bookkeeping), the user's `onlineUsers` entry is deleted
unconditionally, and a `user_offline` event is emitted via `io.emit`. -/
def onDisconnect (st : SocketState) (userId socketId : String) : SocketState × List Emit :=
  ({ st with
      connected := st.connected.filter (fun c => !(c.sid == socketId)),
      onlineUsers := mapDelete st.onlineUsers userId,
      rooms := st.rooms.filter (fun p => !(p.1 == socketId)) },
    [⟨Target.all, Event.user_offline userId⟩])

/-! ### REST read path, translated from `src/server/routes/messages.ts`
(`GET /conversation/:id`) -/

/-- One element of the enriched message list returned by the history fetch. -/
structure EnrichedMessage where
  id : String
  conversation_id : String
  content : String
  created_at : Nat
  sender : Option WireSender
  reactions : List ReactionEntry
  deleted_for_everyone : Bool
  deriving DecidableEq, Repr

/-- The deletion lookup of the read path: first `message_deletions` document
whose `message_id` matches and which is either keyed to the viewer or flagged
for everyone (the `$or` query under natural order). -/
def findDeletion (db : Db) (viewerId messageId : String) : Option DeletionMarker :=
  db.message_deletions.find? (fun d =>
    d.message_id == messageId && (d.user_id == viewerId || d.deleted_for_everyone))

/-- Materialization of one message for a viewer: `null` (here `none`) when a
personal deletion marker for the viewer was found, otherwise the enriched
message, its content replaced by the placeholder when the found marker is
flagged for everyone. -/
def materializeMessage (db : Db) (viewerId : String) (m : Message) :
    Option EnrichedMessage :=
  let sender := db.users.find? (fun u => u.id == m.sender_id)
  let reactions := db.message_reactions.filter (fun r => r.message_id == m.id)
  let deletion := findDeletion db viewerId m.id
  match deletion with
  | some d =>
    if !d.deleted_for_everyone && d.user_id == viewerId then none
    else
      some ⟨m.id, m.conversation_id,
        if d.deleted_for_everyone then "[Message deleted]" else m.content,
        m.created_at,
        sender.map (fun u => ⟨u.id, u.first_name, u.last_name, u.avatar_url⟩),
        reactions.map (fun r => ⟨r.user_id, r.reaction⟩),
        d.deleted_for_everyone⟩
  | none =>
    some ⟨m.id, m.conversation_id, m.content, m.created_at,
      sender.map (fun u => ⟨u.id, u.first_name, u.last_name, u.avatar_url⟩),
      reactions.map (fun r => ⟨r.user_id, r.reaction⟩),
      false⟩

/-- Insertion sort by ascending `created_at` (the `sort({ created_at: 1 })`
of the history query). -/
def insertByTime (m : Message) : List Message → List Message
  | [] => [m]
  | x :: xs =>
    if m.created_at < x.created_at then m :: x :: xs else x :: insertByTime m xs

/-- Sort a message list by ascending creation time. -/
def sortByTime : List Message → List Message
  | [] => []
  | x :: xs => insertByTime x (sortByTime xs)

/-- `GET /conversation/:id`: 403 unless the viewer is a participant, else the
conversation's messages ordered by creation time, each materialized for the
viewer, nulls filtered out. -/
def getConversationHistory (db : Db) (viewerId conversationId : String) :
    Except String (List EnrichedMessage) :=
  if !(isConversationParticipant db viewerId conversationId) then
    Except.error "Not a participant of this conversation"
  else
    let msgs := sortByTime (db.messages.filter (fun m => m.conversation_id == conversationId))
    Except.ok (msgs.filterMap (materializeMessage db viewerId))

/-! ### Helper lemmas about the store primitives -/

theorem filter_replaceFirst_eq (p : α → Bool) (f : α → α) (v : α)
    (hfv : ∀ a, p a = true → f a = v) (hv : p v = true) :
    ∀ l : List α, ∀ x, l.find? p = some x → (l.filter p).length ≤ 1 →
      (replaceFirst p f l).filter p = [v] := by
  intro l
  induction l with
  | nil => intro x hx; simp at hx
  | cons y ys ih =>
    intro x hx hlen
    by_cases hy : p y = true
    · rw [List.filter_cons_of_pos hy] at hlen
      have hnil : List.filter p ys = [] := by
        apply List.eq_nil_of_length_eq_zero
        simp only [List.length_cons] at hlen
        omega
      simp only [replaceFirst, if_pos hy]
      rw [List.filter_cons_of_pos (by rw [hfv y hy]; exact hv), hfv y hy, hnil]
    · rw [List.find?_cons_of_neg _ hy] at hx
      rw [List.filter_cons_of_neg hy] at hlen
      simp only [replaceFirst, if_neg hy]
      rw [List.filter_cons_of_neg hy]
      exact ih x hx hlen

theorem filter_updateOneUpsert_eq (p : α → Bool) (f : α → α) (v : α)
    (hfv : ∀ a, p a = true → f a = v) (hv : p v = true)
    (l : List α) (hlen : (l.filter p).length ≤ 1) :
    (updateOneUpsert l p f v).filter p = [v] := by
  unfold updateOneUpsert
  cases hfind : l.find? p with
  | none =>
    have hnil : l.filter p = [] :=
      List.filter_eq_nil_iff.mpr (List.find?_eq_none.mp hfind)
    rw [List.filter_append, hnil, List.filter_cons_of_pos hv]
    simp
  | some x =>
    exact filter_replaceFirst_eq p f v hfv hv l x hfind hlen

theorem find?_updateOneUpsert_const (p : α → Bool) (v : α) (hv : p v = true)
    (l : List α) : (updateOneUpsert l p (fun _ => v) v).find? p = some v := by
  unfold updateOneUpsert
  cases hfind : l.find? p with
  | none =>
    rw [List.find?_append, hfind]
    simp [List.find?_cons, hv]
  | some x =>
    induction l with
    | nil => simp at hfind
    | cons y ys ih =>
      by_cases hy : p y = true
      · simp only [replaceFirst, if_pos hy]
        exact List.find?_cons_of_pos _ hv
      · rw [List.find?_cons_of_neg _ hy] at hfind
        simp only [replaceFirst, if_neg hy]
        rw [List.find?_cons_of_neg _ hy]
        exact ih hfind

theorem filter_deleteOne_self (p : α → Bool) :
    ∀ l : List α, (l.filter p).length ≤ 1 → (deleteOne p l).filter p = [] := by
  intro l
  induction l with
  | nil => intro _; simp [deleteOne]
  | cons y ys ih =>
    intro hlen
    by_cases hy : p y = true
    · rw [List.filter_cons_of_pos hy] at hlen
      simp only [List.length_cons, Nat.add_le_add_iff_right, Nat.le_zero,
        List.length_eq_zero] at hlen
      simpa [deleteOne, hy] using hlen
    · rw [List.filter_cons_of_neg hy] at hlen
      simp only [deleteOne, if_neg hy]
      rw [List.filter_cons_of_neg hy]
      exact ih hlen

theorem mapGet_mapSet_self (m : List (String × String)) (k v : String) :
    mapGet (mapSet m k v) k = some v := by
  unfold mapSet
  by_cases hany : m.any (fun kv => kv.1 == k) = true
  · rw [if_pos hany]
    induction m with
    | nil => simp at hany
    | cons y ys ih =>
      by_cases hy : (y.1 == k) = true
      · simp only [List.map_cons, if_pos hy, mapGet]
        simp [List.find?_cons]
      · simp only [List.map_cons, if_neg hy, mapGet]
        have hany' : ys.any (fun kv => kv.1 == k) = true := by
          rcases List.any_eq_true.mp hany with ⟨x, hx, hpx⟩
          rcases List.mem_cons.mp hx with rfl | hx'
          · exact absurd hpx hy
          · exact List.any_eq_true.mpr ⟨x, hx', hpx⟩
        have := ih hany'
        simp only [mapGet] at this
        simpa [List.find?_cons, hy] using this
  · rw [if_neg hany]
    unfold mapGet
    have hnone : List.find? (fun kv => kv.1 == k) m = none := by
      rw [List.find?_eq_none]
      intro x hx hpx
      exact hany (List.any_eq_true.mpr ⟨x, hx, hpx⟩)
    rw [List.find?_append, hnone]
    simp [List.find?_cons]

theorem mapGet_mapDelete_self (m : List (String × String)) (k : String) :
    mapGet (mapDelete m k) k = none := by
  unfold mapGet mapDelete
  have hnone : List.find? (fun kv => kv.1 == k)
      (List.filter (fun kv => !(kv.1 == k)) m) = none := by
    rw [List.find?_eq_none]
    intro x hx
    have h2 := (List.mem_filter.mp hx).2
    simpa using h2
  rw [hnone]
  rfl

theorem mem_insertByTime (m a : Message) :
    ∀ l : List Message, a ∈ insertByTime m l ↔ a = m ∨ a ∈ l := by
  intro l
  induction l with
  | nil => simp [insertByTime]
  | cons x xs ih =>
    by_cases h : m.created_at < x.created_at
    · simp [insertByTime, h]
    · simp only [insertByTime, if_neg h, List.mem_cons, ih]
      tauto

theorem mem_sortByTime (a : Message) :
    ∀ l : List Message, a ∈ sortByTime l ↔ a ∈ l := by
  intro l
  induction l with
  | nil => simp [sortByTime]
  | cons x xs ih =>
    simp only [sortByTime, mem_insertByTime, List.mem_cons, ih]

theorem materializeMessage_id (db : Db) (v : String) (m : Message)
    (e : EnrichedMessage) (h : materializeMessage db v m = some e) :
    e.id = m.id := by
  unfold materializeMessage at h
  cases hd : findDeletion db v m.id with
  | none =>
    simp only [hd] at h
    cases h
    rfl
  | some d =>
    simp only [hd] at h
    by_cases hc : (!d.deleted_for_everyone && d.user_id == v) = true
    · simp only [if_pos hc] at h
      exact Option.noConfusion h
    · simp only [if_neg hc] at h
      cases h
      rfl

theorem reactMessage_message_reactions_some (db : Db) (u mid cid k : String) (t : Nat)
    (hpart : isConversationParticipant db u cid = true) :
    ((reactMessage db u mid cid (some k) t).1).message_reactions =
      updateOneUpsert db.message_reactions (reactionKey mid u)
        (fun r => { r with reaction := k, created_at := t }) ⟨mid, u, k, t⟩ := by
  simp [reactMessage, hpart]

theorem reactMessage_message_reactions_none (db : Db) (u mid cid : String) (t : Nat)
    (hpart : isConversationParticipant db u cid = true) :
    ((reactMessage db u mid cid none t).1).message_reactions =
      deleteOne (reactionKey mid u) db.message_reactions := by
  simp [reactMessage, hpart]

theorem reactMessage_participants (db : Db) (u mid cid : String)
    (rq : Option String) (t : Nat) :
    ((reactMessage db u mid cid rq t).1).conversation_participants =
      db.conversation_participants := by
  by_cases hpart : isConversationParticipant db u cid = true
  · cases rq <;> simp [reactMessage, hpart]
  · simp [reactMessage, Bool.eq_false_iff.mpr hpart]

theorem isConversationParticipant_reactMessage (db : Db) (u mid cid : String)
    (rq : Option String) (t : Nat) (u2 cid2 : String) :
    isConversationParticipant (reactMessage db u mid cid rq t).1 u2 cid2 =
      isConversationParticipant db u2 cid2 := by
  unfold isConversationParticipant
  rw [reactMessage_participants]

theorem reactMessage_emits_none (db : Db) (u mid cid : String) (t : Nat)
    (hpart : isConversationParticipant db u cid = true) :
    (reactMessage db u mid cid none t).2 =
      [⟨Target.room ("conversation_" ++ cid),
        Event.message_reaction_updated mid
          (((deleteOne (reactionKey mid u) db.message_reactions).filter
            (fun r => r.message_id == mid)).map
              (fun r => ⟨r.user_id, r.reaction⟩))⟩] := by
  simp [reactMessage, hpart]

theorem findDeletion_prop (db : Db) (v mid : String) (d : DeletionMarker)
    (hd : findDeletion db v mid = some d) :
    d.message_id = mid ∧ (d.user_id = v ∨ d.deleted_for_everyone = true) := by
  have hd' : db.message_deletions.find? (fun x =>
      x.message_id == mid && (x.user_id == v || x.deleted_for_everyone)) = some d := hd
  have hp := List.find?_some hd'
  simp only [Bool.and_eq_true, Bool.or_eq_true, beq_iff_eq] at hp
  exact hp

theorem materializeMessage_personal (db : Db) (v : String) (m : Message)
    (d : DeletionMarker) (hd : findDeletion db v m.id = some d)
    (hdf : d.deleted_for_everyone = false) (hdu : d.user_id = v) :
    materializeMessage db v m = none := by
  unfold materializeMessage
  simp [hd, hdf, hdu]

theorem materializeMessage_everyone (db : Db) (v : String) (m : Message)
    (d : DeletionMarker) (hd : findDeletion db v m.id = some d)
    (hdt : d.deleted_for_everyone = true) :
    materializeMessage db v m =
      some ⟨m.id, m.conversation_id, "[Message deleted]", m.created_at,
        (db.users.find? (fun x => x.id == m.sender_id)).map
          (fun x => ⟨x.id, x.first_name, x.last_name, x.avatar_url⟩),
        (db.message_reactions.filter (fun r => r.message_id == m.id)).map
          (fun r => ⟨r.user_id, r.reaction⟩),
        true⟩ := by
  unfold materializeMessage
  simp [hd, hdt]

theorem materializeMessage_clean (db : Db) (v : String) (m : Message)
    (hd : findDeletion db v m.id = none) :
    materializeMessage db v m =
      some ⟨m.id, m.conversation_id, m.content, m.created_at,
        (db.users.find? (fun x => x.id == m.sender_id)).map
          (fun x => ⟨x.id, x.first_name, x.last_name, x.avatar_url⟩),
        (db.message_reactions.filter (fun r => r.message_id == m.id)).map
          (fun r => ⟨r.user_id, r.reaction⟩),
        false⟩ := by
  unfold materializeMessage
  simp [hd]

theorem getConversationHistory_ok (db : Db) (v cid : String)
    (hpart : isConversationParticipant db v cid = true) :
    getConversationHistory db v cid =
      Except.ok ((sortByTime (db.messages.filter
        (fun x => x.conversation_id == cid))).filterMap (materializeMessage db v)) := by
  simp [getConversationHistory, hpart]

/-! ### Claim theorems -/

/-- C2: a `delete_message` event with `forEveryone = true` issued by a
participant who is not the message's original sender is a no-op: the store is
unchanged (no deletion marker is written for any pair) and no event is
emitted to anyone, so the message remains fully visible. -/
theorem C2_delete_for_everyone_non_sender_noop (db : Db) (u sid mid cid : String)
    (m : Message)
    (hpart : isConversationParticipant db u cid = true)
    (hfind : db.messages.find? (fun x => x.id == mid) = some m)
    (hsender : m.sender_id ≠ u) :
    deleteMessage db u sid mid cid true = (db, []) := by
  simp [deleteMessage, hpart, hfind, bne_iff_ne.mpr hsender]

/-- Witness for C2 at a concrete store: bob, a participant, tries to delete
alice's message for everyone and nothing happens. -/
theorem C2_delete_for_everyone_non_sender_noop_witness :
    deleteMessage
      ⟨[], [⟨"c1", "alice"⟩, ⟨"c1", "bob"⟩], [⟨"m1", "c1", "alice", "hello", 0⟩], [], []⟩
      "bob" "s1" "m1" "c1" true =
      (⟨[], [⟨"c1", "alice"⟩, ⟨"c1", "bob"⟩], [⟨"m1", "c1", "alice", "hello", 0⟩], [], []⟩,
        []) :=
  C2_delete_for_everyone_non_sender_noop _ "bob" "s1" "m1" "c1"
    ⟨"m1", "c1", "alice", "hello", 0⟩ (by decide) (by decide) (by decide)

/-- C10: a `delete_message` event with `forEveryone = true` from a
participant is silently dropped when no message with the given id exists: the
store is unchanged and no event is emitted. -/
theorem C10_delete_missing_message_noop (db : Db) (u sid mid cid : String)
    (hpart : isConversationParticipant db u cid = true)
    (hfind : db.messages.find? (fun x => x.id == mid) = none) :
    deleteMessage db u sid mid cid true = (db, []) := by
  simp [deleteMessage, hpart, hfind]

/-- Witness for C10 at a concrete store: the message id is absent and the
event is dropped. -/
theorem C10_delete_missing_message_noop_witness :
    deleteMessage
      ⟨[], [⟨"c1", "alice"⟩, ⟨"c1", "bob"⟩], [⟨"m1", "c1", "alice", "hello", 0⟩], [], []⟩
      "bob" "s1" "zz" "c1" true =
      (⟨[], [⟨"c1", "alice"⟩, ⟨"c1", "bob"⟩], [⟨"m1", "c1", "alice", "hello", 0⟩], [], []⟩,
        []) :=
  C10_delete_missing_message_noop _ "bob" "s1" "zz" "c1" (by decide) (by decide)

/-- C8: a `delete_message` event with `forEveryone = false` from a
participant upserts a deletion marker keyed by (message, requester) with the
for-everyone flag false, and the resulting `message_deleted` event targets
only the requester's own socket: it is delivered to a socket only if that
socket is the requester's. -/
theorem C8_delete_for_me_local_only (db : Db) (ss : SocketState)
    (u sid mid cid : String)
    (hpart : isConversationParticipant db u cid = true) :
    ((deleteMessage db u sid mid cid false).1).message_deletions.find?
        (deletionKey mid u) = some ⟨mid, u, false⟩ ∧
    (deleteMessage db u sid mid cid false).2 =
      [⟨Target.socket sid, Event.message_deleted mid false⟩] ∧
    ∀ s : String, deliversTo ss (Target.socket sid) s = true → s = sid := by
  refine ⟨?_, ?_, ?_⟩
  · have h := find?_updateOneUpsert_const (deletionKey mid u)
      (⟨mid, u, false⟩ : DeletionMarker) (by simp [deletionKey]) db.message_deletions
    simpa [deleteMessage, hpart] using h
  · simp [deleteMessage, hpart]
  · intro s hs
    have : (sid == s) = true := by simpa [deliversTo] using hs
    exact (beq_iff_eq.mp this).symm

/-- Witness for C8: the concrete marker and emission after bob hides alice's
message for himself. -/
theorem C8_delete_for_me_local_only_witness :
    ((deleteMessage
        ⟨[], [⟨"c1", "alice"⟩, ⟨"c1", "bob"⟩], [⟨"m1", "c1", "alice", "hello", 0⟩], [], []⟩
        "bob" "s1" "m1" "c1" false).1).message_deletions.find?
        (deletionKey "m1" "bob") = some ⟨"m1", "bob", false⟩ ∧
    (deleteMessage
        ⟨[], [⟨"c1", "alice"⟩, ⟨"c1", "bob"⟩], [⟨"m1", "c1", "alice", "hello", 0⟩], [], []⟩
        "bob" "s1" "m1" "c1" false).2 =
      [⟨Target.socket "s1", Event.message_deleted "m1" false⟩] := by
  have h := C8_delete_for_me_local_only
    ⟨[], [⟨"c1", "alice"⟩, ⟨"c1", "bob"⟩], [⟨"m1", "c1", "alice", "hello", 0⟩], [], []⟩
    ⟨[], [], []⟩ "bob" "s1" "m1" "c1" (by decide)
  exact ⟨h.1, h.2.1⟩

/-- C9: on every disconnect of a socket authenticated as user U, U's entry is
removed from the presence mapping and a `user_offline` event is broadcast to
all connections, even when the mapping currently holds a different (newer,
still live) socket id for U. -/
theorem C9_disconnect_unconditional (st : SocketState) (u sid sid2 : String)
    (hstale : mapGet st.onlineUsers u = some sid2) (hne : sid2 ≠ sid) :
    mapGet ((onDisconnect st u sid).1).onlineUsers u = none ∧
    (onDisconnect st u sid).2 = [⟨Target.all, Event.user_offline u⟩] := by
  constructor
  · simpa [onDisconnect] using mapGet_mapDelete_self st.onlineUsers u
  · rfl

/-- Witness for C9: bob's stale socket s0 disconnects while the presence map
points at his live socket s1; he is reported offline anyway. -/
theorem C9_disconnect_unconditional_witness :
    mapGet ((onDisconnect ⟨[⟨"s1", "bob"⟩], [("bob", "s1")], []⟩ "bob" "s0").1).onlineUsers
        "bob" = none ∧
    (onDisconnect ⟨[⟨"s1", "bob"⟩], [("bob", "s1")], []⟩ "bob" "s0").2 =
      [⟨Target.all, Event.user_offline "bob"⟩] :=
  C9_disconnect_unconditional ⟨[⟨"s1", "bob"⟩], [("bob", "s1")], []⟩ "bob" "s0" "s1"
    (by decide) (by decide)

/-- C4: a connection attempt with no token, or with a token that fails
verification, is refused with an authentication error before any state
mutation: the server state (presence mapping, connected set, rooms) is
returned unchanged and no event is emitted. -/
theorem C4_auth_refusal (st : SocketState) (verify : String → Option String)
    (token : Option String) (sid : String)
    (h : token = none ∨ ∃ t, token = some t ∧ verify t = none) :
    ∃ e, attemptConnection st verify token sid = (st, [], some e) := by
  rcases h with rfl | ⟨t, rfl, hv⟩
  · exact ⟨"Authentication required", rfl⟩
  · exact ⟨"Invalid token", by simp [attemptConnection, authMiddleware, hv]⟩

/-- Witness for C4: a token the verifier rejects leaves the server state
untouched and yields an error. -/
theorem C4_auth_refusal_witness :
    ∃ e, attemptConnection ⟨[], [], []⟩ (fun _ => none) (some "tok") "s1" =
      (⟨[], [], []⟩, [], some e) :=
  C4_auth_refusal ⟨[], [], []⟩ (fun _ => none) (some "tok") "s1"
    (Or.inr ⟨"tok", rfl, rfl⟩)

/-- C3 counterexample: the claim says the `user_online` event is delivered to
every connection except U's own newly connected one, but the handler uses a
global broadcast: at a concrete state, alice's own new socket s1 is among the
recipients of the event announcing alice online. -/
theorem C3_user_online_counterexample :
    (onConnection ⟨[⟨"s0", "bob"⟩], [("bob", "s0")], []⟩ "alice" "s1").2 =
      [⟨Target.all, Event.user_online "alice"⟩] ∧
    deliversTo (onConnection ⟨[⟨"s0", "bob"⟩], [("bob", "s0")], []⟩ "alice" "s1").1
      Target.all "s1" = true := by
  constructor <;> rfl

/-- C3 (amended): on every connection establishment by an authenticated user
U, the user is recorded in the presence mapping, the new socket joins the
connected set, and a `user_online` event is broadcast to all connections —
delivered to every currently connected socket, including U's own newly
connected one. -/
theorem C3_user_online_amended (st : SocketState) (u sid : String) :
    (onConnection st u sid).2 = [⟨Target.all, Event.user_online u⟩] ∧
    mapGet ((onConnection st u sid).1).onlineUsers u = some sid ∧
    (⟨sid, u⟩ : Conn) ∈ ((onConnection st u sid).1).connected ∧
    ∀ c ∈ ((onConnection st u sid).1).connected,
      deliversTo (onConnection st u sid).1 Target.all c.sid = true := by
  refine ⟨rfl, ?_, ?_, ?_⟩
  · simpa [onConnection] using mapGet_mapSet_self st.onlineUsers u sid
  · simp [onConnection]
  · intro c hc
    simp only [deliversTo]
    exact List.any_eq_true.mpr ⟨c, hc, by simp⟩

/-- Witness for the amended C3 at a concrete state: alice is recorded online
under her new socket id. -/
theorem C3_user_online_amended_witness :
    mapGet ((onConnection ⟨[⟨"s0", "bob"⟩], [("bob", "s0")], []⟩ "alice" "s1").1).onlineUsers
      "alice" = some "s1" :=
  (C3_user_online_amended ⟨[⟨"s0", "bob"⟩], [("bob", "s0")], []⟩ "alice" "s1").2.1

/-- C5: a `send_message` event from a current participant (persistence always
succeeds in the list model, matching the claim's success hypothesis) emits
exactly one fully-materialized `new_message` event — carrying the new message
id, the content, the denormalized sender profile and an empty reaction
list — targeted at the conversation's broadcast group, and a room-targeted
event is delivered to every socket currently joined to that room, the
sender's own socket included whenever it is joined. -/
theorem C5_send_message_broadcast (db : Db) (ss : SocketState)
    (u cid content nid : String) (now : Nat)
    (hpart : isConversationParticipant db u cid = true) :
    (sendMessage db u cid content nid now).2 =
      [⟨Target.room ("conversation_" ++ cid),
        Event.new_message
          ⟨nid, cid, u, content,
            (db.users.find? (fun x => x.id == u)).map
              (fun x => ⟨x.id, x.first_name, x.last_name, x.avatar_url⟩),
            []⟩⟩] ∧
    ∀ sid : String, (sid, "conversation_" ++ cid) ∈ ss.rooms →
      deliversTo ss (Target.room ("conversation_" ++ cid)) sid = true := by
  constructor
  · simp [sendMessage, hpart]
  · intro sid hsid
    simp only [deliversTo]
    exact List.elem_iff.mpr hsid

/-- Witness for C5: alice, a participant whose socket s0 is joined to the
room, sends "hi"; the materialized broadcast and its delivery to her own
socket. -/
theorem C5_send_message_broadcast_witness :
    (sendMessage
        ⟨[⟨"alice", "Alice", "A", none⟩], [⟨"c1", "alice"⟩, ⟨"c1", "bob"⟩], [], [], []⟩
        "alice" "c1" "hi" "m9" 5).2 =
      [⟨Target.room "conversation_c1",
        Event.new_message
          ⟨"m9", "c1", "alice", "hi", some ⟨"alice", "Alice", "A", none⟩, []⟩⟩] ∧
    deliversTo ⟨[⟨"s0", "alice"⟩], [], [("s0", "conversation_c1")]⟩
      (Target.room "conversation_c1") "s0" = true := by
  have h := C5_send_message_broadcast
    ⟨[⟨"alice", "Alice", "A", none⟩], [⟨"c1", "alice"⟩, ⟨"c1", "bob"⟩], [], [], []⟩
    ⟨[⟨"s0", "alice"⟩], [], [("s0", "conversation_c1")]⟩
    "alice" "c1" "hi" "m9" 5 (by decide)
  exact ⟨h.1, h.2 "s0" (by decide)⟩

/-- C6: for a participant U and message M, with at most one stored reaction
for the pair (M, U) beforehand (the unique index on `message_reactions`),
issuing `react_message` twice with two different non-null kinds leaves
exactly one reaction record for (M, U), whose kind is the second one. -/
theorem C6_react_last_write_wins (db : Db) (u mid cid k1 k2 : String) (t1 t2 : Nat)
    (hpart : isConversationParticipant db u cid = true)
    (hkinds : k1 ≠ k2)
    (hlen : (db.message_reactions.filter (reactionKey mid u)).length ≤ 1) :
    (((reactMessage (reactMessage db u mid cid (some k1) t1).1 u mid cid
        (some k2) t2).1).message_reactions.filter (reactionKey mid u)) =
      [⟨mid, u, k2, t2⟩] := by
  have hpart1 : isConversationParticipant (reactMessage db u mid cid (some k1) t1).1
      u cid = true := by
    rw [isConversationParticipant_reactMessage]
    exact hpart
  have h1 := reactMessage_message_reactions_some db u mid cid k1 t1 hpart
  have hfilter1 : (((reactMessage db u mid cid (some k1) t1).1).message_reactions.filter
      (reactionKey mid u)) = [⟨mid, u, k1, t1⟩] := by
    rw [h1]
    refine filter_updateOneUpsert_eq _ _ _ ?_ (by simp [reactionKey]) _ hlen
    intro r hr
    simp only [reactionKey, Bool.and_eq_true, beq_iff_eq] at hr
    cases r
    simp_all
  have h2 := reactMessage_message_reactions_some (reactMessage db u mid cid (some k1) t1).1
    u mid cid k2 t2 hpart1
  rw [h2]
  refine filter_updateOneUpsert_eq _ _ _ ?_ (by simp [reactionKey]) _ ?_
  · intro r hr
    simp only [reactionKey, Bool.and_eq_true, beq_iff_eq] at hr
    cases r
    simp_all
  · rw [hfilter1]
    simp

/-- Witness for C6: bob reacts "like" then "love"; one record with kind
"love" remains. -/
theorem C6_react_last_write_wins_witness :
    (((reactMessage (reactMessage
        ⟨[], [⟨"c1", "alice"⟩, ⟨"c1", "bob"⟩], [⟨"m1", "c1", "alice", "hello", 0⟩], [], []⟩
        "bob" "m1" "c1" (some "like") 1).1 "bob" "m1" "c1"
        (some "love") 2).1).message_reactions.filter (reactionKey "m1" "bob")) =
      [⟨"m1", "bob", "love", 2⟩] :=
  C6_react_last_write_wins
    ⟨[], [⟨"c1", "alice"⟩, ⟨"c1", "bob"⟩], [⟨"m1", "c1", "alice", "hello", 0⟩], [], []⟩
    "bob" "m1" "c1" "like" "love" 1 2 (by decide) (by decide) (by decide)

/-- C7: for a participant U who has set a reaction on message M (with at most
one stored reaction for (M, U) beforehand), a subsequent `react_message` with
a null kind removes the (M, U) record entirely, and the full reaction set
broadcast for M after that event contains no entry for U. -/
theorem C7_react_null_removes (db : Db) (u mid cid k : String) (t1 t2 : Nat)
    (hpart : isConversationParticipant db u cid = true)
    (hlen : (db.message_reactions.filter (reactionKey mid u)).length ≤ 1) :
    (((reactMessage (reactMessage db u mid cid (some k) t1).1 u mid cid
        none t2).1).message_reactions.filter (reactionKey mid u)) = [] ∧
    ∃ entries : List ReactionEntry,
      (reactMessage (reactMessage db u mid cid (some k) t1).1 u mid cid none t2).2 =
        [⟨Target.room ("conversation_" ++ cid),
          Event.message_reaction_updated mid entries⟩] ∧
      ∀ e ∈ entries, e.user_id ≠ u := by
  have hpart1 : isConversationParticipant (reactMessage db u mid cid (some k) t1).1
      u cid = true := by
    rw [isConversationParticipant_reactMessage]
    exact hpart
  have h1 := reactMessage_message_reactions_some db u mid cid k t1 hpart
  have hfilter1 : (((reactMessage db u mid cid (some k) t1).1).message_reactions.filter
      (reactionKey mid u)) = [⟨mid, u, k, t1⟩] := by
    rw [h1]
    refine filter_updateOneUpsert_eq _ _ _ ?_ (by simp [reactionKey]) _ hlen
    intro r hr
    simp only [reactionKey, Bool.and_eq_true, beq_iff_eq] at hr
    cases r
    simp_all
  have h2 := reactMessage_message_reactions_none (reactMessage db u mid cid (some k) t1).1
    u mid cid t2 hpart1
  have hempty : (((reactMessage (reactMessage db u mid cid (some k) t1).1 u mid cid
      none t2).1).message_reactions.filter (reactionKey mid u)) = [] := by
    rw [h2]
    apply filter_deleteOne_self
    rw [hfilter1]
    simp
  refine ⟨hempty, ?_⟩
  refine ⟨((deleteOne (reactionKey mid u)
      ((reactMessage db u mid cid (some k) t1).1).message_reactions).filter
      (fun r => r.message_id == mid)).map (fun r => ⟨r.user_id, r.reaction⟩), ?_, ?_⟩
  · exact reactMessage_emits_none _ u mid cid t2 hpart1
  · intro e he hu
    rcases List.mem_map.mp he with ⟨r, hr, rfl⟩
    have hrd := List.mem_filter.mp hr
    have hkey : reactionKey mid u r = true := by
      simp only [reactionKey, Bool.and_eq_true]
      exact ⟨hrd.2, by simpa using hu⟩
    have hrmem : r ∈ (((reactMessage (reactMessage db u mid cid (some k) t1).1 u mid cid
        none t2).1).message_reactions.filter (reactionKey mid u)) := by
      rw [h2]
      exact List.mem_filter.mpr ⟨hrd.1, hkey⟩
    rw [hempty] at hrmem
    simp at hrmem

/-- Witness for C7: bob sets "like" then clears it; no record remains and the
broadcast list is empty. -/
theorem C7_react_null_removes_witness :
    (((reactMessage (reactMessage
        ⟨[], [⟨"c1", "alice"⟩, ⟨"c1", "bob"⟩], [⟨"m1", "c1", "alice", "hello", 0⟩], [], []⟩
        "bob" "m1" "c1" (some "like") 1).1 "bob" "m1" "c1"
        none 2).1).message_reactions.filter (reactionKey "m1" "bob")) = [] ∧
    ∃ entries : List ReactionEntry,
      (reactMessage (reactMessage
        ⟨[], [⟨"c1", "alice"⟩, ⟨"c1", "bob"⟩], [⟨"m1", "c1", "alice", "hello", 0⟩], [], []⟩
        "bob" "m1" "c1" (some "like") 1).1 "bob" "m1" "c1" none 2).2 =
        [⟨Target.room "conversation_c1",
          Event.message_reaction_updated "m1" entries⟩] ∧
      ∀ e ∈ entries, e.user_id ≠ "bob" :=
  C7_react_null_removes
    ⟨[], [⟨"c1", "alice"⟩, ⟨"c1", "bob"⟩], [⟨"m1", "c1", "alice", "hello", 0⟩], [], []⟩
    "bob" "m1" "c1" "like" 1 2 (by decide) (by decide)

/-- C1 counterexample: the claim requires that when both a personal deletion
marker for the viewer and a for-everyone marker exist, the message is
excluded from the viewer's history.  At a concrete store where the
for-everyone marker precedes the personal marker in natural order, the
history fetch for bob returns the message (with placeholder content) instead
of excluding it. -/
theorem C1_read_path_counterexample :
    (⟨"m1", "bob", false⟩ : DeletionMarker) ∈
      (⟨[], [⟨"c1", "alice"⟩, ⟨"c1", "bob"⟩], [⟨"m1", "c1", "alice", "hello", 0⟩], [],
        [⟨"m1", "alice", true⟩, ⟨"m1", "bob", false⟩]⟩ : Db).message_deletions ∧
    (⟨"m1", "alice", true⟩ : DeletionMarker) ∈
      (⟨[], [⟨"c1", "alice"⟩, ⟨"c1", "bob"⟩], [⟨"m1", "c1", "alice", "hello", 0⟩], [],
        [⟨"m1", "alice", true⟩, ⟨"m1", "bob", false⟩]⟩ : Db).message_deletions ∧
    getConversationHistory
      (⟨[], [⟨"c1", "alice"⟩, ⟨"c1", "bob"⟩], [⟨"m1", "c1", "alice", "hello", 0⟩], [],
        [⟨"m1", "alice", true⟩, ⟨"m1", "bob", false⟩]⟩ : Db) "bob" "c1" =
      Except.ok [⟨"m1", "c1", "[Message deleted]", 0, none, [], true⟩] := by
  refine ⟨by decide, by decide, ?_⟩
  rfl

/-- C1 (amended): for every message in a conversation history fetch by viewer
V, the outcome is decided by the first deletion marker in store order that
matches the message and is either keyed to V or flagged for everyone: a
personal (non-for-everyone) marker for V excludes the message entirely, a
for-everyone marker includes it with content replaced by '[Message deleted]',
and with no such marker the message is returned unmodified.  When both kinds
of marker exist, exclusion wins for V only if the personal marker precedes
the for-everyone marker. -/
theorem C1_read_path_amended (db : Db) (v cid : String) (m : Message)
    (hpart : isConversationParticipant db v cid = true)
    (hm : m ∈ db.messages) (hmc : m.conversation_id = cid)
    (hnodup : (db.messages.map Message.id).Nodup) :
    (∀ d, findDeletion db v m.id = some d → d.deleted_for_everyone = false →
      ∀ l, getConversationHistory db v cid = Except.ok l → ∀ e ∈ l, e.id ≠ m.id) ∧
    (∀ d, findDeletion db v m.id = some d → d.deleted_for_everyone = true →
      ∀ l, getConversationHistory db v cid = Except.ok l →
        ∃ e ∈ l, e.id = m.id ∧ e.content = "[Message deleted]") ∧
    (findDeletion db v m.id = none →
      ∀ l, getConversationHistory db v cid = Except.ok l →
        ∃ e ∈ l, e.id = m.id ∧ e.content = m.content) := by
  have hok := getConversationHistory_ok db v cid hpart
  have hmem : m ∈ sortByTime (db.messages.filter (fun x => x.conversation_id == cid)) := by
    rw [mem_sortByTime]
    exact List.mem_filter.mpr ⟨hm, by simp [hmc]⟩
  refine ⟨?_, ?_, ?_⟩
  · intro d hd hdf l hl e hel heq
    rw [hok] at hl
    injection hl with hl
    subst hl
    rcases List.mem_filterMap.mp hel with ⟨m2, hm2, hmat⟩
    have hid2 : e.id = m2.id := materializeMessage_id db v m2 e hmat
    have hm2' : m2 ∈ db.messages := (List.mem_filter.mp ((mem_sortByTime m2 _).mp hm2)).1
    have hsame : m2 = m := by
      refine List.inj_on_of_nodup_map hnodup hm2' hm ?_
      show m2.id = m.id
      rw [← hid2]
      exact heq
    subst hsame
    have hdu : d.user_id = v := by
      rcases (findDeletion_prop db v m2.id d hd).2 with h | h
      · exact h
      · rw [hdf] at h
        cases h
    rw [materializeMessage_personal db v m2 d hd hdf hdu] at hmat
    cases hmat
  · intro d hd hdt l hl
    rw [hok] at hl
    injection hl with hl
    subst hl
    exact ⟨_, List.mem_filterMap.mpr
      ⟨m, hmem, materializeMessage_everyone db v m d hd hdt⟩, rfl, rfl⟩
  · intro hd l hl
    rw [hok] at hl
    injection hl with hl
    subst hl
    exact ⟨_, List.mem_filterMap.mpr
      ⟨m, hmem, materializeMessage_clean db v m hd⟩, rfl, rfl⟩

/-- Witness for the amended C1: with only a for-everyone marker present, the
history bob fetches contains the message with the placeholder content. -/
theorem C1_read_path_amended_witness :
    ∃ e ∈ [(⟨"m1", "c1", "[Message deleted]", 0, none, [], true⟩ : EnrichedMessage)],
      e.id = "m1" ∧ e.content = "[Message deleted]" :=
  (C1_read_path_amended
    ⟨[], [⟨"c1", "alice"⟩, ⟨"c1", "bob"⟩], [⟨"m1", "c1", "alice", "hello", 0⟩], [],
      [⟨"m1", "alice", true⟩]⟩
    "bob" "c1" ⟨"m1", "c1", "alice", "hello", 0⟩
    (by decide) (by decide) (by decide) (by decide)).2.1
    ⟨"m1", "alice", true⟩ (by decide) (by decide)
    [⟨"m1", "c1", "[Message deleted]", 0, none, [], true⟩] (by rfl)

end SocialLite
